import Mathlib

/-!
Verification of the h2tunnel multiplexing runtime (src/src/h2tunnel.ts)
against its natural-language specification.

The development shallowly embeds the parts of the program the claims are
about:

- the per-stream bridging handlers installed by AbstractTunnel.addStream
  (data / end / error / close listeners on a TCP socket and an HTTP/2
  stream);
- the resource registries of Stoppable (closeables, destroyables,
  timeouts) and the stop() drain;
- the server endpoint as an event-step system (secureConnection,
  remoteSettings, socket close, session death, stop) with the proxy
  connection handler as a function of the server state;
- the client endpoint as an event-step system (mux listening, tunnel
  socket close, restart timer fire, session arrival, stop) tracking the
  pending reconnect timers;
- the keepalive PING arming and re-arming logic of the client, and the
  action list of the server remoteSettings handler.

Durations are modelled as rationals (the code computes timeout * 0.5,
which is exact in binary floating point for integer timeouts and equals
timeout / 2 over the rationals). Resources (sockets, streams, sessions,
timers) are identified by natural numbers.
-/

namespace H2Tunnel

/-! ## StreamBridge: the handlers installed by AbstractTunnel.addStream

Source, addStream (h2tunnel.ts lines 720-763): for a pair
(socket, stream) a helper setup(duplex1, duplex2, t, destroyDuplex2)
installs listeners on duplex1:

- data:  log length, duplex2.write(chunk)
- end:   log FIN, and if (!duplex2.writableEnded) duplex2.end()
- close: if (duplex1.errored && !duplex2.destroyed) destroyDuplex2()

and is instantiated twice:

- setup(socket, stream, "send", () => stream.destroy(new Error()))
- setup(stream, socket, "recv", () => socket.resetAndDestroy())
-/

/-- Observable state of one side of a bridged pair, as read by the
addStream handlers: the writableEnded, destroyed and errored flags of a
Node duplex (errored is modelled as a Bool standing for errored being
non-null). -/
structure DuplexState where
  writableEnded : Bool
  destroyed : Bool
  errored : Bool
deriving DecidableEq, Repr, Fintype

/-- Copy direction of one setup instantiation: send is the instantiation
setup(socket, stream, ...) where duplex1 is the TCP socket, recv is
setup(stream, socket, ...) where duplex1 is the H2 stream. -/
inductive CopyDir
  | send
  | recv
deriving DecidableEq, Repr, Fintype

/-- Forcible termination applied to duplex2 by the close handler. -/
inductive TermAction
  | noop
  | destroyWithError
  | resetAndDestroy
deriving DecidableEq, Repr, Fintype

/-- Transcription of the destroyDuplex2 argument of each setup call: when
duplex1 is the socket (send direction) the peer is the H2 stream and is
destroyed with new Error(), which emits RST_STREAM; when duplex1 is the
stream (recv direction) the peer is the TCP socket and receives
resetAndDestroy, which sends RST. -/
def destroyDuplex2 : CopyDir → TermAction
  | .send => .destroyWithError
  | .recv => .resetAndDestroy

/-- Effect of duplex.end() on the modelled flags. -/
def duplexEnd (d : DuplexState) : DuplexState :=
  { d with writableEnded := true }

/-- Transcription of the end listener installed by setup: on a clean
end-of-stream of duplex1, call duplex2.end() unless duplex2.writableEnded
already holds. Returns whether duplex2.end() was called, and the state of
duplex2 afterwards. -/
def onEndHandler (duplex2 : DuplexState) : Bool × DuplexState :=
  if !duplex2.writableEnded then (true, duplexEnd duplex2) else (false, duplex2)

/-- Transcription of the close listener installed by setup: if duplex1
closed having errored and duplex2 is not yet destroyed, apply the
destroyDuplex2 action of this direction; otherwise do nothing. -/
def onCloseHandler (dir : CopyDir) (duplex1errored : Bool)
    (duplex2 : DuplexState) : TermAction :=
  if duplex1errored && !duplex2.destroyed then destroyDuplex2 dir else .noop

/-- Log lines emitted by the error and close listeners of addStream
(h2tunnel.ts lines 723-737). -/
inductive BridgeLog
  | errorLine (streamId : Nat)
  | sendRST (streamId : Nat)
  | recvRST (streamId : Nat)
  | closedLine (streamId : Nat)
deriving DecidableEq, Repr

/-- Transcription of the socket error listener: log the error line, then
log send RST. -/
def socketErrorHandlerLogs (streamId : Nat) : List BridgeLog :=
  [.errorLine streamId, .sendRST streamId]

/-- Transcription of the stream error listener: log recv RST only when
the paired TCP socket has not itself errored (socket.errored is null). -/
def streamErrorHandlerLogs (streamId : Nat) (socketErrored : Bool) :
    List BridgeLog :=
  if !socketErrored then [.recvRST streamId] else []

/-! ## The activeStreams map and streamId assignment

Source (lines 720-722 and 734-737): addStream computes
streamId = this.activeStreams.size, then this.activeStreams.set(stream,
socket); the close listener of the stream deletes the entry. A JS Map is
modelled as an association list in insertion order: set replaces in
place when the key is present and appends otherwise, size is the length,
delete removes the entry. Streams and sockets are identified by Nat
keys. -/

/-- JS Map.prototype.set on an association list. -/
def mapSet (m : List (Nat × Nat)) (k v : Nat) : List (Nat × Nat) :=
  if m.any (fun p => p.1 == k) then
    m.map (fun p => if p.1 == k then (k, v) else p)
  else
    m ++ [(k, v)]

/-- JS Map.prototype.delete on an association list. -/
def mapDelete (m : List (Nat × Nat)) (k : Nat) : List (Nat × Nat) :=
  m.filter (fun p => p.1 != k)

/-- Transcription of the streamId assignment of addStream: the id is the
current size of activeStreams, and the pair is then inserted. -/
def addStreamId (activeStreams : List (Nat × Nat)) (streamKey socketKey : Nat) :
    Nat × List (Nat × Nat) :=
  (activeStreams.length, mapSet activeStreams streamKey socketKey)

/-- Transcription of the close listener of addStream on the map: the
entry of the stream is deleted from activeStreams. -/
def closeStream (activeStreams : List (Nat × Nat)) (streamKey : Nat) :
    List (Nat × Nat) :=
  mapDelete activeStreams streamKey

/-- Operations on the activeStreams map of one endpoint, in program
order: an addStream call, or the close event of a live stream. -/
inductive BridgeOp
  | add (streamKey socketKey : Nat)
  | close (streamKey : Nat)
deriving DecidableEq, Repr

/-- Run a sequence of bridge operations, collecting the streamIds
returned by the addStream calls in order. -/
def runBridgeOps : List (Nat × Nat) → List BridgeOp → List Nat × List (Nat × Nat)
  | m, [] => ([], m)
  | m, BridgeOp.add sk ck :: ops =>
      let r := addStreamId m sk ck
      let rest := runBridgeOps r.2 ops
      (r.1 :: rest.1, rest.2)
  | m, BridgeOp.close sk :: ops => runBridgeOps (closeStream m sk) ops

/-! ## Stoppable: resource registries and stop()

Source (lines 666-697 and 772-777): Stoppable keeps three registries,
closeables, destroyables and timeouts. addCloseable and addDestroyable
insert the resource into its Set and subscribe to its close event with a
listener that deletes the entry. setTimeout wraps the timer so that it
removes itself from timeouts before invoking the callback.
AbstractTunnel.stop sets aborted = true, then Stoppable.stop runs
clearTimeout on every pending timer, calls close() on each closeable and
destroy() on each destroyable, and awaits the close event of each
registered resource before resolving; every such close event fires the
deletion listener registered at insertion time. The model replays those
close events over the snapshot of both registries. Resources are
identified by Nat; the JS Sets are association-free lists whose insert
deduplicates. The timeouts field models the set of pending (armed)
timers, which clearTimeout cancels. -/

/-- Registries of one Stoppable endpoint. -/
structure StoppableState where
  closeables : List Nat
  destroyables : List Nat
  timeouts : List Nat
  aborted : Bool
deriving DecidableEq, Repr

/-- Transcription of addCloseable: insert into the closeables Set (a JS
Set insert of a present element is a no-op). -/
def addCloseable (s : StoppableState) (c : Nat) : StoppableState :=
  if c ∈ s.closeables then s else { s with closeables := s.closeables ++ [c] }

/-- Transcription of addDestroyable. -/
def addDestroyable (s : StoppableState) (c : Nat) : StoppableState :=
  if c ∈ s.destroyables then s
  else { s with destroyables := s.destroyables ++ [c] }

/-- Close event of resource c: the deletion listeners registered by
addCloseable and addDestroyable remove the entry from its registry
(erasing an absent element is a no-op, matching a listener that was
never registered for that registry). -/
def fireClose (s : StoppableState) (c : Nat) : StoppableState :=
  { s with
    closeables := s.closeables.erase c
    destroyables := s.destroyables.erase c }

/-- Transcription of AbstractTunnel.stop / Stoppable.stop: set aborted,
cancel every pending timer, close and destroy every registered resource
and replay the close event of each of them (stop resolves only once all
of those close events have fired). -/
def stopModel (s : StoppableState) : StoppableState :=
  let s1 : StoppableState := { s with aborted := true, timeouts := [] }
  (s1.closeables ++ s1.destroyables).foldl fireClose s1

/-! ## TunnelServer as an event-step system

Source (lines 788-905). Each accepted tunnel consists of a TLS socket
and the HTTP/2 session created for it in the same secureConnection
handler; the pair is identified by one Nat. The handler (lines 832-862)
first destroys the previous tunnel socket (this.tunnelSocket?.destroy()),
then installs the new one and creates the session; the close listener of
the socket destroys its session with new Error(). Node delivers the
close event of a destroyed socket on process.nextTick, before any
further I/O event is dispatched, so the destroy cascade is folded into
the same step. activeSession is assigned only inside the remoteSettings
listener of the session. The proxy connection handler (lines 806-818)
rejects with resetAndDestroy when there is no activeSession, the
activeSession is destroyed, or the endpoint is aborted, and otherwise
opens exactly one POST stream on the activeSession. -/

/-- Outcome of the proxyServer connection handler for one inbound TCP
connection: reject is socket.resetAndDestroy(), bridge is one HTTP/2
stream opened on the given session with the given request method. -/
inductive ProxyAction
  | reject
  | bridge (session : Nat) (method : String)
deriving DecidableEq, Repr

/-- State of the TunnelServer endpoint. tunnels lists the ids of the
accepted tunnels (socket and paired session); deadSockets and
deadSessions list the destroyed ones. tunnelSocket is the field
this.tunnelSocket (never nulled by this version of the code);
settingsReceived lists the sessions whose remoteSettings event has been
processed. -/
structure ServerState where
  aborted : Bool
  tunnels : List Nat
  deadSockets : List Nat
  deadSessions : List Nat
  tunnelSocket : Option Nat
  settingsReceived : List Nat
  activeSession : Option Nat
deriving DecidableEq, Repr

/-- State of a TunnelServer before any event. -/
def initialServer : ServerState :=
  { aborted := false, tunnels := [], deadSockets := [], deadSessions := []
    tunnelSocket := none, settingsReceived := [], activeSession := none }

/-- Destruction of tunnel n (socket destroy plus the close-listener
cascade session.destroy(new Error())). -/
def killTunnel (s : ServerState) (n : Nat) : ServerState :=
  { s with
    deadSockets := n :: s.deadSockets
    deadSessions := n :: s.deadSessions }

/-- Events processed by the TunnelServer. -/
inductive ServerEvent
  | secureConnection (n : Nat)
  | remoteSettings (n : Nat)
  | socketClose (n : Nat)
  | sessionDied (n : Nat)
  | stopCall
deriving DecidableEq, Repr

/-- Which events the Node runtime can deliver in a given state:
a secureConnection brings a fresh socket and session pair; a close or
error event is only delivered for a live resource (a destroyed socket or
session emits no further events); a remoteSettings event is only
delivered while not aborted, because stop() synchronously destroys every
registered session and closes the muxServer socket pair that feeds any
session created later, so the settings exchange of such a session never
completes. -/
def serverGuard (s : ServerState) : ServerEvent → Prop
  | .secureConnection n => n ∉ s.tunnels
  | .remoteSettings n =>
      s.aborted = false ∧ n ∈ s.tunnels ∧ n ∉ s.deadSessions
  | .socketClose n => n ∈ s.tunnels ∧ n ∉ s.deadSockets
  | .sessionDied n => n ∈ s.tunnels ∧ n ∉ s.deadSessions
  | .stopCall => True

/-- Step function of the TunnelServer, transcribed from the handlers:

- secureConnection (lines 832-862): this.tunnelSocket?.destroy() with
  its cascade, then install the new socket and create its session;
- remoteSettings (lines 854-861): this.activeSession = session;
- socketClose: the close listener of the tunnel socket destroys the
  paired session with new Error();
- sessionDied: a session-level failure destroys only the session;
- stopCall (lines 772-777 with 686-696): aborted = true and every
  registered socket and session is destroyed. -/
def serverStep (s : ServerState) : ServerEvent → ServerState
  | .secureConnection n =>
      let s1 := match s.tunnelSocket with
        | some c => killTunnel s c
        | none => s
      { s1 with tunnels := n :: s1.tunnels, tunnelSocket := some n }
  | .remoteSettings n =>
      { s with
        settingsReceived := n :: s.settingsReceived
        activeSession := some n }
  | .socketClose n => killTunnel s n
  | .sessionDied n => { s with deadSessions := n :: s.deadSessions }
  | .stopCall =>
      { s with
        aborted := true
        deadSockets := s.tunnels ++ s.deadSockets
        deadSessions := s.tunnels ++ s.deadSessions }

/-- States of the TunnelServer reachable from the initial state by
runtime-deliverable events. -/
inductive ServerReachable : ServerState → Prop
  | init : ServerReachable initialServer
  | step {s : ServerState} {e : ServerEvent} : ServerReachable s →
      serverGuard s e → ServerReachable (serverStep s e)

/-- Transcription of the proxyServer connection handler (lines 806-818):
if (!this.activeSession || this.activeSession.destroyed || this.aborted)
then socket.resetAndDestroy(), else exactly one POST stream is opened on
the activeSession and the pair is handed to addStream. -/
def proxyConnection (s : ServerState) : ProxyAction :=
  match s.activeSession with
  | none => .reject
  | some m =>
      if m ∈ s.deadSessions ∨ s.aborted = true then .reject
      else .bridge m "POST"

/-! ## TunnelClient as an event-step system

Source (lines 907-1003). startTunnel clears any pending restart and ping
timer, then dials a fresh TLS tunnel socket. The close listener of the
tunnel socket (lines 969-978) logs disconnected, destroys the mux
socket, and, when not aborted, schedules exactly one reconnect timer
with this.setTimeout; a second close listener registered when the
session arrived destroys the session with new Error(). startTunnel is
invoked from the muxServer listening event (once, line 917) and from the
restart timer callback (line 975). stop (lines 772-777 with 686-696)
sets aborted, clears all pending timers and destroys the registered
socket, mux socket, session and streams; their close events then run
with aborted already true. -/

/-- Side effects the client code performs, named after the source
calls. -/
inductive ClientAction
  | logDisconnected
  | destroyMuxSocket
  | destroySessionWithError
  | scheduleRestart
  | dialTunnel
  | clearTimers
deriving DecidableEq, Repr

/-- State of the TunnelClient endpoint: restartTimers counts the pending
reconnect timers (armed and not yet fired or cancelled). -/
structure ClientState where
  aborted : Bool
  muxListeningDone : Bool
  socketLive : Bool
  sessionLive : Bool
  restartTimers : Nat
  dialCount : Nat
deriving DecidableEq, Repr

/-- State of a TunnelClient right after start(). -/
def initialClient : ClientState :=
  { aborted := false, muxListeningDone := false, socketLive := false
    sessionLive := false, restartTimers := 0, dialCount := 0 }

/-- Transcription of startTunnel (lines 939-978): clear any pending
restart (and ping) timer, then dial a fresh TLS socket. -/
def startTunnel (s : ClientState) : ClientState × List ClientAction :=
  ({ s with restartTimers := 0, socketLive := true
            dialCount := s.dialCount + 1 },
   [ClientAction.dialTunnel])

/-- Events processed by the TunnelClient. -/
inductive ClientEvent
  | muxListening
  | socketClose
  | restartFire
  | sessionArrives
  | stopCall
deriving DecidableEq, Repr

/-- Which events the runtime can deliver: the muxServer listening event
fires once; a close event is only delivered for a live socket; a restart
timer only fires while one is pending; a session only arrives over a
live tunnel socket. -/
def clientGuard (s : ClientState) : ClientEvent → Prop
  | .muxListening => s.muxListeningDone = false
  | .socketClose => s.socketLive = true
  | .restartFire => 1 ≤ s.restartTimers
  | .sessionArrives => s.socketLive = true ∧ s.sessionLive = false
  | .stopCall => True

/-- Step function of the TunnelClient, transcribed from the handlers.
On socketClose the two close listeners run in registration order: the
one from startTunnel (log disconnected, destroy mux socket, and if not
aborted arm the reconnect timer), then the one registered on session
arrival (session.destroy(new Error()), a no-op if the session is already
destroyed, modelled by emitting the action only for a live session). On
stopCall, stop() clears every pending timer and destroys the registered
socket, mux socket and session; their close events run with aborted
already true, so no reconnect timer is armed. -/
def clientStep (s : ClientState) : ClientEvent → ClientState × List ClientAction
  | .muxListening => startTunnel { s with muxListeningDone := true }
  | .socketClose =>
      let acts := [ClientAction.logDisconnected, ClientAction.destroyMuxSocket]
        ++ (if s.aborted then [] else [ClientAction.scheduleRestart])
        ++ (if s.sessionLive then [ClientAction.destroySessionWithError] else [])
      let s1 := { s with socketLive := false, sessionLive := false }
      if s.aborted then (s1, acts)
      else ({ s1 with restartTimers := s1.restartTimers + 1 }, acts)
  | .restartFire => startTunnel { s with restartTimers := s.restartTimers - 1 }
  | .sessionArrives => ({ s with sessionLive := true }, [])
  | .stopCall =>
      ({ s with aborted := true, restartTimers := 0
                socketLive := false, sessionLive := false },
       [ClientAction.clearTimers])

/-- States of the TunnelClient reachable from the post-start state by
runtime-deliverable events. -/
inductive ClientReachable : ClientState → Prop
  | init : ClientReachable initialClient
  | step {s : ClientState} {e : ClientEvent} : ClientReachable s →
      clientGuard s e → ClientReachable (clientStep s e).1

/-! ## Keepalive PING

Source: the server remoteSettings handler (lines 854-861) assigns
this.activeSession = session, installs a no-op ping listener, logs the
connected line and emits the connected event. The client remoteSettings
handler (lines 983-1001) calls ping(), which arms
this.pingTimeout = this.setTimeout(..., timeout * 0.5); when that timer
fires it calls session.ping unless the session is destroyed, and the
ping callback calls ping() again only when err is absent. -/

/-- Actions a remoteSettings handler or the ping machinery performs. -/
inductive HandlerAction
  | setActiveSession
  | onPingNoopListener
  | logConnected
  | emitConnected
  | armPingTimer (delay : ℚ)
  | sessionPing
deriving DecidableEq, Repr

/-- Transcription of the server remoteSettings handler (lines 854-861),
in program order. -/
def serverRemoteSettingsActions : List HandlerAction :=
  [.setActiveSession, .onPingNoopListener, .logConnected, .emitConnected]

/-- Predicate for an action that arms a keepalive ping timer. -/
def isArmPing : HandlerAction → Bool
  | .armPingTimer _ => true
  | _ => false

/-- Transcription of the client remoteSettings handler (lines 983-1001),
in program order: ping() arms the timer at timeout * 0.5, then the
connected line is logged and the connected event emitted. -/
def clientRemoteSettingsActions (timeout : ℚ) : List HandlerAction :=
  [.armPingTimer (timeout * (1 / 2)), .logConnected, .emitConnected]

/-- Transcription of the ping timer body (lines 985-993): when the timer
fires, session.ping is issued unless the session is destroyed. -/
def pingTimerFire (sessionDestroyed : Bool) : List HandlerAction :=
  if !sessionDestroyed then [.sessionPing] else []

/-- Transcription of the ping acknowledgement callback (lines 987-992):
ping() is called again, re-arming the timer at timeout * 0.5, only when
the acknowledgement arrived without error. -/
def pingCallbackActions (timeout : ℚ) (err : Bool) : List HandlerAction :=
  if !err then [.armPingTimer (timeout * (1 / 2))] else []

/-! ## Invariants -/

/-- Inductive invariant of the TunnelServer event system:

1. the activeSession has received its remoteSettings and is an accepted
   tunnel;
2. at most one installed tunnel socket is live, namely the one the
   tunnelSocket field points to;
3. a tunnel whose session is live has a live socket (a socket close
   always cascades into the session);
4. the tunnelSocket field points to an accepted tunnel;
5. settings were only received on accepted tunnels;
6. while aborted, the activeSession is absent or destroyed;
7. and 8. destroyed sockets and sessions are accepted tunnels. -/
def ServerInv (s : ServerState) : Prop :=
  (∀ m, s.activeSession = some m → m ∈ s.settingsReceived ∧ m ∈ s.tunnels) ∧
  (∀ m, m ∈ s.tunnels → m ∉ s.deadSockets → s.tunnelSocket = some m) ∧
  (∀ m, m ∈ s.tunnels → m ∉ s.deadSessions → m ∉ s.deadSockets) ∧
  (∀ m, s.tunnelSocket = some m → m ∈ s.tunnels) ∧
  (∀ m, m ∈ s.settingsReceived → m ∈ s.tunnels) ∧
  (s.aborted = true →
    s.activeSession = none ∨
      ∃ m, s.activeSession = some m ∧ m ∈ s.deadSessions) ∧
  (∀ m, m ∈ s.deadSockets → m ∈ s.tunnels) ∧
  (∀ m, m ∈ s.deadSessions → m ∈ s.tunnels)

/-- Inductive invariant of the TunnelClient event system: at most one
reconnect timer is pending; while the tunnel socket is live no reconnect
timer is pending; while aborted no reconnect timer is pending. -/
def ClientInv (s : ClientState) : Prop :=
  s.restartTimers ≤ 1 ∧
  (s.restartTimers = 1 → s.socketLive = false) ∧
  (s.aborted = true → s.restartTimers = 0)

instance instDecidableServerGuard (s : ServerState) (e : ServerEvent) :
    Decidable (serverGuard s e) :=
  match e with
  | .secureConnection n => inferInstanceAs (Decidable (n ∉ s.tunnels))
  | .remoteSettings n =>
      inferInstanceAs
        (Decidable (s.aborted = false ∧ n ∈ s.tunnels ∧ n ∉ s.deadSessions))
  | .socketClose n =>
      inferInstanceAs (Decidable (n ∈ s.tunnels ∧ n ∉ s.deadSockets))
  | .sessionDied n =>
      inferInstanceAs (Decidable (n ∈ s.tunnels ∧ n ∉ s.deadSessions))
  | .stopCall => inferInstanceAs (Decidable True)

instance instDecidableClientGuard (s : ClientState) (e : ClientEvent) :
    Decidable (clientGuard s e) :=
  match e with
  | .muxListening => inferInstanceAs (Decidable (s.muxListeningDone = false))
  | .socketClose => inferInstanceAs (Decidable (s.socketLive = true))
  | .restartFire => inferInstanceAs (Decidable (1 ≤ s.restartTimers))
  | .sessionArrives =>
      inferInstanceAs (Decidable (s.socketLive = true ∧ s.sessionLive = false))
  | .stopCall => inferInstanceAs (Decidable True)

/-! ## Helper lemmas -/

theorem foldl_fireClose_closeables (l : List Nat) (s : StoppableState) :
    (l.foldl fireClose s).closeables = l.foldl List.erase s.closeables := by
  induction l generalizing s with
  | nil => rfl
  | cons x l ih => simpa [fireClose] using ih (fireClose s x)

theorem foldl_fireClose_destroyables (l : List Nat) (s : StoppableState) :
    (l.foldl fireClose s).destroyables = l.foldl List.erase s.destroyables := by
  induction l generalizing s with
  | nil => rfl
  | cons x l ih => simpa [fireClose] using ih (fireClose s x)

theorem foldl_fireClose_timeouts (l : List Nat) (s : StoppableState) :
    (l.foldl fireClose s).timeouts = s.timeouts := by
  induction l generalizing s with
  | nil => rfl
  | cons x l ih => simpa [fireClose] using ih (fireClose s x)

theorem foldl_fireClose_aborted (l : List Nat) (s : StoppableState) :
    (l.foldl fireClose s).aborted = s.aborted := by
  induction l generalizing s with
  | nil => rfl
  | cons x l ih => simpa [fireClose] using ih (fireClose s x)

theorem foldl_erase_of_subperm :
    ∀ (xs acc : List Nat), acc.Subperm xs → xs.foldl List.erase acc = [] := by
  intro xs
  induction xs with
  | nil =>
      intro acc h
      simpa using List.subperm_nil.mp h
  | cons x xs ih =>
      intro acc h
      have h2 : (acc.erase x).Subperm ((x :: xs).erase x) := h.erase x
      rw [List.erase_cons_head] at h2
      simpa using ih (acc.erase x) h2

/-! ## Claim theorems -/

/-- C1. For every bridged pair set up by addStream, when one side emits
its clean end-of-stream, the bridge calls end() on the other side iff
the other side has not already ended for writing; the other side is
never destroyed on a clean end (its destroyed and errored flags are
untouched and the close handler of a side that did not error performs no
termination), so the opposite copy direction survives half-open. -/
theorem addStream_end_half_close :
    ∀ duplex2 : DuplexState,
      ((onEndHandler duplex2).1 = true ↔ duplex2.writableEnded = false) ∧
      (onEndHandler duplex2).2.writableEnded = true ∧
      (onEndHandler duplex2).2.destroyed = duplex2.destroyed ∧
      (onEndHandler duplex2).2.errored = duplex2.errored ∧
      (∀ dir, onCloseHandler dir false duplex2 = TermAction.noop) := by
  decide

/-- C2. For every bridged pair set up by addStream, when one side closes
having errored while the other side is not yet destroyed, the bridge
forcibly terminates the other side: resetAndDestroy when the survivor is
the TCP socket (recv direction), destroy with new Error() when the
survivor is the H2 stream (send direction); when the other side is
already destroyed, nothing is done. -/
theorem addStream_error_propagates_reset (duplex2 : DuplexState)
    (halive : duplex2.destroyed = false) :
    onCloseHandler CopyDir.recv true duplex2 = TermAction.resetAndDestroy ∧
    onCloseHandler CopyDir.send true duplex2 = TermAction.destroyWithError ∧
    (∀ dir e,
      onCloseHandler dir e { duplex2 with destroyed := true } =
        TermAction.noop) := by
  revert halive
  revert duplex2
  decide

theorem addStream_error_propagates_reset_witness :
    onCloseHandler CopyDir.recv true
        { writableEnded := false, destroyed := false, errored := true } =
      TermAction.resetAndDestroy :=
  (addStream_error_propagates_reset
    { writableEnded := false, destroyed := false, errored := true } rfl).1

/-- C9. The stream error listener logs recv RST iff the paired TCP
socket has not itself errored at that moment, while the socket error
listener always logs the error line followed by send RST. -/
theorem addStream_error_log_disambiguation :
    ∀ (streamId : Nat) (socketErrored : Bool),
      (streamErrorHandlerLogs streamId socketErrored =
          [BridgeLog.recvRST streamId] ↔ socketErrored = false) ∧
      (streamErrorHandlerLogs streamId socketErrored = [] ↔
          socketErrored = true) ∧
      socketErrorHandlerLogs streamId =
        [BridgeLog.errorLine streamId, BridgeLog.sendRST streamId] := by
  intro streamId socketErrored
  cases socketErrored <;>
    simp [streamErrorHandlerLogs, socketErrorHandlerLogs]

/-- C8, counterexample. The streamId numbering of addStream is not
monotonic: ids are the current size of activeStreams, so after adding
two streams, closing the first and adding a third, the returned ids are
0, 1, 1 and the third call does not return an id strictly greater than
the second. -/
theorem addStream_id_not_monotonic :
    (runBridgeOps [] [BridgeOp.add 10 20, BridgeOp.add 11 21,
        BridgeOp.close 10, BridgeOp.add 12 22]).1 = [0, 1, 1] ∧
    ¬ List.Pairwise (fun a b => a < b)
        (runBridgeOps [] [BridgeOp.add 10 20, BridgeOp.add 11 21,
          BridgeOp.close 10, BridgeOp.add 12 22]).1 := by
  decide

/-- C8, amended. The streamId returned by addStream equals the number of
live streams at the time of the call, so across consecutive addStream
calls with no intervening stream closure the ids are the consecutive
integers starting at the initial size, strictly increasing and pairwise
distinct; monotonicity across closures does not hold. -/
theorem addStream_ids_fresh_run (pairs : List (Nat × Nat)) :
    ∀ m : List (Nat × Nat),
      (m.map Prod.fst ++ pairs.map Prod.fst).Nodup →
      (runBridgeOps m (pairs.map (fun p => BridgeOp.add p.1 p.2))).1 =
          List.range' m.length pairs.length ∧
      List.Pairwise (fun a b => a < b)
        (runBridgeOps m (pairs.map (fun p => BridgeOp.add p.1 p.2))).1 := by
  induction pairs with
  | nil =>
      intro m h
      exact ⟨rfl, List.Pairwise.nil⟩
  | cons p rest ih =>
      intro m h
      have hp : p.1 ∉ m.map Prod.fst := by
        intro hmem
        have hd := List.disjoint_of_nodup_append h
        exact hd hmem (by simp)
      have hany : m.any (fun q => q.1 == p.1) = false := by
        rw [List.any_eq_false]
        intro q hq
        simp only [beq_iff_eq]
        intro hqe
        exact hp (List.mem_map.mpr ⟨q, hq, hqe⟩)
      have hset : mapSet m p.1 p.2 = m ++ [(p.1, p.2)] := by
        simp [mapSet, hany]
      have hnodup2 :
          ((m ++ [(p.1, p.2)]).map Prod.fst ++ rest.map Prod.fst).Nodup := by
        have : (m ++ [(p.1, p.2)]).map Prod.fst ++ rest.map Prod.fst =
            m.map Prod.fst ++ (p :: rest).map Prod.fst := by
          simp
        rw [this]
        exact h
      have ihr := ih (m ++ [(p.1, p.2)]) hnodup2
      have hrun :
          (runBridgeOps m ((p :: rest).map (fun q => BridgeOp.add q.1 q.2))).1 =
            m.length ::
              (runBridgeOps (m ++ [(p.1, p.2)])
                (rest.map (fun q => BridgeOp.add q.1 q.2))).1 := by
        simp [runBridgeOps, addStreamId, hset]
      constructor
      · rw [hrun, ihr.1]
        have hlen : (m ++ [(p.1, p.2)]).length = m.length + 1 := by simp
        rw [hlen, List.length_cons, List.range'_succ]
      · rw [hrun, ihr.1]
        have hlen : (m ++ [(p.1, p.2)]).length = m.length + 1 := by simp
        rw [hlen]
        have := List.pairwise_lt_range' m.length (rest.length + 1)
        rwa [List.range'_succ] at this

theorem addStream_ids_fresh_run_witness :
    (runBridgeOps []
        ([((3 : Nat), (4 : Nat)), (5, 6)].map
          (fun p => BridgeOp.add p.1 p.2))).1 =
      List.range' 0 2 :=
  (addStream_ids_fresh_run [(3, 4), (5, 6)] [] (by decide)).1

/-- C7, counterexample. The remoteSettings handler of the server assigns
the active session, installs a no-op ping listener, logs the connected
line and emits the connected event; it arms no keepalive PING timer, so
the claim that the server starts a PING timer at interval timeout/2 is
false. -/
theorem server_remoteSettings_no_ping :
    serverRemoteSettingsActions.filter isArmPing = [] ∧
    serverRemoteSettingsActions =
      [HandlerAction.setActiveSession, HandlerAction.onPingNoopListener,
       HandlerAction.logConnected, HandlerAction.emitConnected] :=
  ⟨rfl, rfl⟩

/-- C7, amended. After the client HTTP/2 session emits remoteSettings,
the client arms a keepalive PING timer at interval timeout/2 (the source
computes timeout * 0.5); when the timer fires the PING is issued only on
a session that is not destroyed, and the PING is re-armed iff its
acknowledgement arrives without error. -/
theorem client_ping_keepalive :
    ∀ (timeout : ℚ) (err : Bool),
      HandlerAction.armPingTimer (timeout / 2) ∈
        clientRemoteSettingsActions timeout ∧
      (pingCallbackActions timeout err =
          [HandlerAction.armPingTimer (timeout / 2)] ↔ err = false) ∧
      pingTimerFire false = [HandlerAction.sessionPing] ∧
      pingTimerFire true = [] := by
  intro timeout err
  refine ⟨?_, ?_, rfl, rfl⟩
  · simp [clientRemoteSettingsActions, div_eq_mul_inv]
  · cases err <;> simp [pingCallbackActions, div_eq_mul_inv]

/-- C4. When stop() resolves, both registries are empty: stop sets
aborted, cancels every pending timer, closes each closeable and destroys
each destroyable, and resolves only after the close event of every
registered resource has fired, each of which deletes its entry. -/
theorem stop_empties_registries (s : StoppableState) :
    (stopModel s).closeables = [] ∧
    (stopModel s).destroyables = [] ∧
    (stopModel s).timeouts = [] ∧
    (stopModel s).aborted = true := by
  unfold stopModel
  refine ⟨?_, ?_, ?_, ?_⟩
  · rw [foldl_fireClose_closeables]
    exact foldl_erase_of_subperm _ _
      ((List.sublist_append_left _ _).subperm)
  · rw [foldl_fireClose_destroyables]
    exact foldl_erase_of_subperm _ _
      ((List.sublist_append_right _ _).subperm)
  · rw [foldl_fireClose_timeouts]
  · rw [foldl_fireClose_aborted]

theorem serverInv_init : ServerInv initialServer := by
  refine ⟨?_, ?_, ?_, ?_, ?_, ?_, ?_, ?_⟩ <;> simp [initialServer]

theorem serverInv_step (s : ServerState) (e : ServerEvent)
    (hinv : ServerInv s) (hg : serverGuard s e) : ServerInv (serverStep s e) := by
  obtain ⟨i1, i2, i3, i4, i5, i6, i7, i8⟩ := hinv
  cases e with
  | secureConnection n =>
      have hfresh : n ∉ s.tunnels := hg
      cases hts : s.tunnelSocket with
      | none =>
          simp only [serverStep, hts]
          refine ⟨?_, ?_, ?_, ?_, ?_, ?_, ?_, ?_⟩
          · intro m hm
            exact ⟨(i1 m hm).1, List.mem_cons_of_mem _ (i1 m hm).2⟩
          · intro m hm hnd
            rcases List.mem_cons.mp hm with rfl | hm'
            · rfl
            · exact absurd (i2 m hm' hnd) (by rw [hts]; intro h; cases h)
          · intro m hm hnd
            rcases List.mem_cons.mp hm with rfl | hm'
            · intro hdead
              exact hfresh (i7 m hdead)
            · exact i3 m hm' hnd
          · intro m hm
            injection hm with hm
            exact List.mem_cons.mpr (Or.inl hm.symm)
          · intro m hm
            exact List.mem_cons_of_mem _ (i5 m hm)
          · intro hab
            exact i6 hab
          · intro m hm
            exact List.mem_cons_of_mem _ (i7 m hm)
          · intro m hm
            exact List.mem_cons_of_mem _ (i8 m hm)
      | some c =>
          have hc : c ∈ s.tunnels := i4 c hts
          simp only [serverStep, hts, killTunnel]
          refine ⟨?_, ?_, ?_, ?_, ?_, ?_, ?_, ?_⟩
          · intro m hm
            exact ⟨(i1 m hm).1, List.mem_cons_of_mem _ (i1 m hm).2⟩
          · intro m hm hnd
            simp only [List.mem_cons, not_or] at hnd
            rcases List.mem_cons.mp hm with rfl | hm'
            · rfl
            · have := i2 m hm' hnd.2
              rw [hts] at this
              injection this with this
              exact absurd this.symm hnd.1
          · intro m hm hnd
            simp only [List.mem_cons, not_or] at hnd
            simp only [List.mem_cons, not_or]
            rcases List.mem_cons.mp hm with rfl | hm'
            · exact ⟨fun h => hfresh (h ▸ hc), fun h => hfresh (i7 m h)⟩
            · exact ⟨hnd.1, i3 m hm' hnd.2⟩
          · intro m hm
            injection hm with hm
            exact List.mem_cons.mpr (Or.inl hm.symm)
          · intro m hm
            exact List.mem_cons_of_mem _ (i5 m hm)
          · intro hab
            rcases i6 hab with h | ⟨m, hm, hdead⟩
            · exact Or.inl h
            · exact Or.inr ⟨m, hm, List.mem_cons_of_mem _ hdead⟩
          · intro m hm
            rcases List.mem_cons.mp hm with rfl | hm'
            · exact List.mem_cons_of_mem _ hc
            · exact List.mem_cons_of_mem _ (i7 m hm')
          · intro m hm
            rcases List.mem_cons.mp hm with rfl | hm'
            · exact List.mem_cons_of_mem _ hc
            · exact List.mem_cons_of_mem _ (i8 m hm')
  | remoteSettings n =>
      obtain ⟨hab, hmem, hnd⟩ := hg
      simp only [serverStep]
      refine ⟨?_, i2, i3, i4, ?_, ?_, i7, i8⟩
      · intro m hm
        injection hm with hm
        subst hm
        exact ⟨List.mem_cons_self _ _, hmem⟩
      · intro m hm
        rcases List.mem_cons.mp hm with rfl | hm'
        · exact hmem
        · exact i5 m hm'
      · intro habT
        rw [hab] at habT
        cases habT
  | socketClose n =>
      obtain ⟨hmem, hnd⟩ := hg
      simp only [serverStep, killTunnel]
      refine ⟨i1, ?_, ?_, i4, i5, ?_, ?_, ?_⟩
      · intro m hm hnd2
        simp only [List.mem_cons, not_or] at hnd2
        exact i2 m hm hnd2.2
      · intro m hm hnd2
        simp only [List.mem_cons, not_or] at hnd2
        simp only [List.mem_cons, not_or]
        exact ⟨hnd2.1, i3 m hm hnd2.2⟩
      · intro hab
        rcases i6 hab with h | ⟨m, hm, hdead⟩
        · exact Or.inl h
        · exact Or.inr ⟨m, hm, List.mem_cons_of_mem _ hdead⟩
      · intro m hm
        rcases List.mem_cons.mp hm with rfl | hm'
        · exact hmem
        · exact i7 m hm'
      · intro m hm
        rcases List.mem_cons.mp hm with rfl | hm'
        · exact hmem
        · exact i8 m hm'
  | sessionDied n =>
      obtain ⟨hmem, hnd⟩ := hg
      simp only [serverStep]
      refine ⟨i1, i2, ?_, i4, i5, ?_, i7, ?_⟩
      · intro m hm hnd2
        simp only [List.mem_cons, not_or] at hnd2
        exact i3 m hm hnd2.2
      · intro hab
        rcases i6 hab with h | ⟨m, hm, hdead⟩
        · exact Or.inl h
        · exact Or.inr ⟨m, hm, List.mem_cons_of_mem _ hdead⟩
      · intro m hm
        rcases List.mem_cons.mp hm with rfl | hm'
        · exact hmem
        · exact i8 m hm'
  | stopCall =>
      simp only [serverStep]
      refine ⟨i1, ?_, ?_, i4, i5, ?_, ?_, ?_⟩
      · intro m hm hnd
        exact absurd (List.mem_append_left _ hm) hnd
      · intro m hm hnd
        exact absurd (List.mem_append_left _ hm) hnd
      · intro _
        cases hact : s.activeSession with
        | none => exact Or.inl rfl
        | some m =>
            exact Or.inr ⟨m, rfl, List.mem_append_left _ (i1 m hact).2⟩
      · intro m hm
        rcases List.mem_append.mp hm with h | h
        · exact h
        · exact i7 m h
      · intro m hm
        rcases List.mem_append.mp hm with h | h
        · exact h
        · exact i8 m h

theorem serverInv_reachable {s : ServerState} (h : ServerReachable s) :
    ServerInv s := by
  induction h with
  | init => exact serverInv_init
  | step hr hg ih => exact serverInv_step _ _ ih hg

/-- C3. For every TCP connection accepted on the proxy listener of a
reachable server state: the connection is terminated with resetAndDestroy
iff there is no activeSession or the activeSession is destroyed, and
otherwise exactly one HTTP/2 stream is opened on the activeSession (the
explicit aborted disjunct of the source guard adds nothing on reachable
states, because while aborted the activeSession is always absent or
destroyed). -/
theorem proxyConnection_reject_iff (s : ServerState) (hs : ServerReachable s) :
    (proxyConnection s = ProxyAction.reject ↔
      (s.activeSession = none ∨
        ∃ m, s.activeSession = some m ∧ m ∈ s.deadSessions)) ∧
    (∀ m meth, proxyConnection s = ProxyAction.bridge m meth ↔
      (s.activeSession = some m ∧ m ∉ s.deadSessions ∧ meth = "POST")) := by
  obtain ⟨i1, i2, i3, i4, i5, i6, i7, i8⟩ := serverInv_reachable hs
  cases hact : s.activeSession with
  | none =>
      constructor
      · simp [proxyConnection, hact]
      · intro m meth
        simp [proxyConnection, hact]
  | some a =>
      by_cases hdead : a ∈ s.deadSessions
      · constructor
        · constructor
          · intro _
            exact Or.inr ⟨a, rfl, hdead⟩
          · intro _
            simp [proxyConnection, hact, hdead]
        · intro m meth
          constructor
          · intro h
            simp [proxyConnection, hact, hdead] at h
          · rintro ⟨hm, hnd, _⟩
            injection hm with hm
            subst hm
            exact absurd hdead hnd
      · have habf : s.aborted = false := by
          cases hb : s.aborted with
          | false => rfl
          | true =>
              rcases i6 hb with h | ⟨m, hm, hd⟩
              · rw [hact] at h
                cases h
              · rw [hact] at hm
                injection hm with hm
                subst hm
                exact absurd hd hdead
        constructor
        · constructor
          · intro h
            simp [proxyConnection, hact, hdead, habf] at h
          · rintro (h | ⟨m, hm, hd⟩)
            · cases h
            · injection hm with hm
              subst hm
              exact absurd hd hdead
        · intro m meth
          constructor
          · intro h
            simp [proxyConnection, hact, hdead, habf] at h
            obtain ⟨h1, h2⟩ := h
            subst h1
            subst h2
            exact ⟨rfl, hdead, rfl⟩
          · rintro ⟨hm, hnd, rfl⟩
            injection hm with hm
            subst hm
            simp [proxyConnection, hact, hdead, habf]

theorem proxyConnection_reject_iff_witness :
    proxyConnection
        (serverStep (serverStep initialServer (ServerEvent.secureConnection 0))
          (ServerEvent.remoteSettings 0)) =
      ProxyAction.bridge 0 "POST" :=
  ((proxyConnection_reject_iff _
      (ServerReachable.step
        (ServerReachable.step ServerReachable.init (by decide))
        (by decide))).2 0 "POST").mpr ⟨by decide, by decide, rfl⟩

/-- C5. Whenever the server tunnel listener accepts a second TLS
handshake while a prior tunnel socket exists, processing the
secureConnection event destroys the prior socket (whose close cascades
into its session) and installs the new one as tunnelSocket; at most one
installed tunnel socket is live at any instant in any reachable state;
and a session becomes activeSession only through its own remoteSettings
event (an activeSession always has its settings received, and no other
event changes the field). -/
theorem secureConnection_preemption (s : ServerState) (hs : ServerReachable s) :
    (∀ c n, s.tunnelSocket = some c →
      c ∈ (serverStep s (ServerEvent.secureConnection n)).deadSockets ∧
      c ∈ (serverStep s (ServerEvent.secureConnection n)).deadSessions ∧
      (serverStep s (ServerEvent.secureConnection n)).tunnelSocket = some n) ∧
    (∀ m m2, m ∈ s.tunnels → m ∉ s.deadSockets → m2 ∈ s.tunnels →
      m2 ∉ s.deadSockets → m = m2) ∧
    (∀ m, s.activeSession = some m → m ∈ s.settingsReceived) ∧
    (∀ e, (∀ n, e ≠ ServerEvent.remoteSettings n) →
      (serverStep s e).activeSession = s.activeSession) := by
  obtain ⟨i1, i2, i3, i4, i5, i6, i7, i8⟩ := serverInv_reachable hs
  refine ⟨?_, ?_, ?_, ?_⟩
  · intro c n hc
    simp [serverStep, hc, killTunnel]
  · intro m m2 hm hnd hm2 hnd2
    have h1 := i2 m hm hnd
    have h2 := i2 m2 hm2 hnd2
    rw [h1] at h2
    injection h2
  · intro m hm
    exact (i1 m hm).1
  · intro e hne
    cases e with
    | secureConnection n =>
        cases hts : s.tunnelSocket <;> simp [serverStep, hts, killTunnel]
    | remoteSettings n => exact absurd rfl (hne n)
    | socketClose n => simp [serverStep, killTunnel]
    | sessionDied n => simp [serverStep]
    | stopCall => simp [serverStep]

theorem secureConnection_preemption_witness :
    0 ∈ (serverStep (serverStep initialServer (ServerEvent.secureConnection 0))
        (ServerEvent.secureConnection 1)).deadSockets :=
  ((secureConnection_preemption _
      (ServerReachable.step ServerReachable.init (by decide))).1
    0 1 (by decide)).1

/-- C10. In any reachable server state in which an installed tunnel
socket has not yet had its remoteSettings processed (the preemption
window), the activeSession is still absent or refers to a destroyed
session, and every proxy connection arriving in the window is rejected
with resetAndDestroy. -/
theorem preemption_window_rejects_proxy (s : ServerState)
    (hs : ServerReachable s) (n : Nat) (hsock : s.tunnelSocket = some n)
    (hwin : n ∉ s.settingsReceived) :
    (s.activeSession = none ∨
      ∃ m, s.activeSession = some m ∧ m ∈ s.deadSessions) ∧
    proxyConnection s = ProxyAction.reject := by
  obtain ⟨i1, i2, i3, i4, i5, i6, i7, i8⟩ := serverInv_reachable hs
  have hmain : s.activeSession = none ∨
      ∃ m, s.activeSession = some m ∧ m ∈ s.deadSessions := by
    cases hact : s.activeSession with
    | none => exact Or.inl rfl
    | some m =>
        refine Or.inr ⟨m, rfl, ?_⟩
        by_contra hnd
        have hmem := (i1 m hact).1
        have hns : m ∉ s.deadSockets := i3 m (i1 m hact).2 hnd
        have hsk := i2 m (i1 m hact).2 hns
        rw [hsock] at hsk
        injection hsk with heq
        subst heq
        exact hwin hmem
  refine ⟨hmain, ?_⟩
  rcases hmain with h | ⟨m, hm, hd⟩
  · simp [proxyConnection, h]
  · simp [proxyConnection, hm, hd]

theorem preemption_window_rejects_proxy_witness :
    proxyConnection
        (serverStep (serverStep (serverStep initialServer
            (ServerEvent.secureConnection 0)) (ServerEvent.remoteSettings 0))
          (ServerEvent.secureConnection 1)) =
      ProxyAction.reject :=
  (preemption_window_rejects_proxy _
    (ServerReachable.step
      (ServerReachable.step
        (ServerReachable.step ServerReachable.init (by decide))
        (by decide))
      (by decide))
    1 (by decide) (by decide)).2

theorem clientInv_init : ClientInv initialClient := by
  refine ⟨?_, ?_, ?_⟩ <;> simp [initialClient]

theorem clientInv_step (s : ClientState) (e : ClientEvent)
    (hinv : ClientInv s) (hg : clientGuard s e) : ClientInv (clientStep s e).1 := by
  obtain ⟨j1, j2, j3⟩ := hinv
  cases e with
  | muxListening =>
      refine ⟨?_, ?_, ?_⟩ <;> simp [clientStep, startTunnel]
  | socketClose =>
      have hlive : s.socketLive = true := hg
      have h0 : s.restartTimers = 0 := by
        rcases Nat.lt_or_ge s.restartTimers 1 with h | h
        · omega
        · have h1 : s.restartTimers = 1 := le_antisymm j1 h
          rw [j2 h1] at hlive
          cases hlive
      cases hab : s.aborted with
      | true => refine ⟨?_, ?_, ?_⟩ <;> simp [clientStep, hab, h0]
      | false => refine ⟨?_, ?_, ?_⟩ <;> simp [clientStep, hab, h0]
  | restartFire =>
      refine ⟨?_, ?_, ?_⟩ <;> simp [clientStep, startTunnel]
  | sessionArrives =>
      exact ⟨j1, j2, j3⟩
  | stopCall =>
      refine ⟨?_, ?_, ?_⟩ <;> simp [clientStep]

theorem clientInv_reachable {s : ClientState} (h : ClientReachable s) :
    ClientInv s := by
  induction h with
  | init => exact clientInv_init
  | step hr hg ih => exact clientInv_step _ _ ih hg

/-- C6. In any reachable client state at most one reconnect timer is
pending; when the tunnel TLS socket closes while aborted is false, the
H2 session (if one is live) is destroyed with an error and exactly one
reconnect timer is pending afterwards; while aborted is true no
reconnect timer is pending, the close handler schedules no reconnect,
and stop() leaves no pending timer, so no new tunnel dial is ever
scheduled while aborted. -/
theorem client_reconnect_discipline (s : ClientState) (hs : ClientReachable s) :
    s.restartTimers ≤ 1 ∧
    (s.socketLive = true → s.aborted = false →
      (clientStep s ClientEvent.socketClose).1.restartTimers = 1 ∧
      ClientAction.scheduleRestart ∈ (clientStep s ClientEvent.socketClose).2 ∧
      (s.sessionLive = true →
        ClientAction.destroySessionWithError ∈
          (clientStep s ClientEvent.socketClose).2)) ∧
    (s.aborted = true →
      s.restartTimers = 0 ∧
      ClientAction.scheduleRestart ∉ (clientStep s ClientEvent.socketClose).2) ∧
    (clientStep s ClientEvent.stopCall).1.restartTimers = 0 := by
  have hinv := clientInv_reachable hs
  obtain ⟨j1, j2, j3⟩ := hinv
  refine ⟨j1, ?_, ?_, rfl⟩
  · intro hlive hab
    have h0 : s.restartTimers = 0 := by
      rcases Nat.lt_or_ge s.restartTimers 1 with h | h
      · omega
      · have h1 : s.restartTimers = 1 := le_antisymm j1 h
        rw [j2 h1] at hlive
        cases hlive
    refine ⟨?_, ?_, ?_⟩
    · simp [clientStep, hab, h0]
    · simp [clientStep, hab]
    · intro hsess
      simp [clientStep, hab, hsess]
  · intro hab
    refine ⟨j3 hab, ?_⟩
    cases hsess : s.sessionLive <;> simp [clientStep, hab, hsess]

theorem client_reconnect_discipline_witness :
    (clientStep (clientStep initialClient ClientEvent.muxListening).1
        ClientEvent.socketClose).1.restartTimers = 1 :=
  ((client_reconnect_discipline _
      (ClientReachable.step ClientReachable.init (by decide))).2.1
    (by decide) (by decide)).1

end H2Tunnel
